import Mathlib

/-!
Shallow embedding of `easybuild/framework/easyconfig/types.py`: the
type-specification matcher / converter engine for easyconfig parameter values.

Modelling conventions:
* Python runtime values are `PyVal`; dictionary keys are modelled as `String`
  (every key occurring in this module's code paths is a string).  Python dict
  equality is content equality; our association lists carry insertion order,
  so theorems about dicts with ambiguous ordering add explicit hypotheses.
* Python objects that can appear in type-specification position (classes,
  strings, lists, tuples, `(parent, requirements)` pairs) are `TypeObj`.
* Python floats are modelled with integral payloads only; they exist as
  runtime values with a distinct runtime type, which is all the claims need.
* `raise EasyBuildError(...)` and other Python exceptions become
  `Except.error` with an `EBErr` constructor per raise site.
* Python 2 iterates dicts in an arbitrary (hash) order; we iterate the
  association list in its given order.  All theorems that could be sensitive
  to this either use concrete inputs or are order-independent.
-/

inductive PyType where
  | pystr | pybasestring | pyint | pyfloat | pylist | pytuple | pydict
  deriving DecidableEq

/-- A Python runtime value (the shapes this module manipulates). -/
inductive PyVal where
  | str : String → PyVal
  | int : Int → PyVal
  | float : Int → PyVal
  | list : List PyVal → PyVal
  | tuple : List PyVal → PyVal
  | dict : List (String × PyVal) → PyVal

/-- A Python object usable in type-specification position: a string, a list,
a tuple, a class (`str`, `int`, ...), or a `(parent_type, requirements)`
2-tuple as built by the module's constants. -/
inductive TypeObj where
  | s : String → TypeObj
  | lst : List TypeObj → TypeObj
  | tup : List TypeObj → TypeObj
  | cls : PyType → TypeObj
  | spec : PyType → List (String × TypeObj) → TypeObj

/-- Error values: one constructor per Python raise site (plus the runtime
`TypeError` / `AttributeError` / `KeyError` sites reachable from this code). -/
inductive EBErr where
  /-- `is_value_of_type` line 107: type not in `EASY_TYPES`/`CHECKABLE_TYPES`. -/
  | unknownCheckType : EBErr
  /-- `is_value_of_type` line 90: compound parent type is not dict or list. -/
  | unknownParentType : EBErr
  /-- `is_value_of_type` line 99: unknown requirement name. -/
  | unknownRequirement : EBErr
  /-- `KeyError` from `extra_reqs[...]` lookups inside requirement checkers. -/
  | keyErrorReq : EBErr
  /-- `TypeError` from iterating/concatenating a non-sequence requirement value. -/
  | typeErrorIter : EBErr
  /-- `TypeError` from `isinstance` applied to a malformed class-info tuple. -/
  | typeErrorIsinstance : EBErr
  /-- `AttributeError` from `.strip()` on a non-string. -/
  | attributeErrorStrip : EBErr
  /-- `convert_value_type` line 171: the coercion function raised (wrapped). -/
  | conversionFailed : EBErr → EBErr
  /-- `convert_value_type` line 174: result fails the `isinstance` check. -/
  | conversionResultBadType : EBErr
  /-- `convert_value_type` line 177: no conversion function for the type. -/
  | noConversionFunction : EBErr
  /-- `to_name_version_dict` line 200: list does not have 2 elements. -/
  | listNot2Elements : EBErr
  /-- `to_name_version_dict` line 207: dict keys are not exactly name/version. -/
  | badDictKeys : EBErr
  /-- `to_name_version_dict` line 210: unsupported input type. -/
  | nvUnsupportedType : EBErr
  /-- `to_dependency` line 236: second free (key, value) pair in a dependency dict. -/
  | unexpectedKeyValue : EBErr
  /-- `to_dependency` line 242: dependency dict without name and version. -/
  | depNoNameVersion : EBErr
  /-- `to_dependency` line 256: unsupported input type. -/
  | depUnsupportedType : EBErr
  /-- `TypeError`/`ValueError` from `int()`/`float()`/iteration on bad operands. -/
  | typeErrorConv : EBErr
  | valueErrorConv : EBErr
  deriving DecidableEq

mutual

/-- Boolean equality on `TypeObj` (Python `==` between type-spec objects). -/
def tBeq : TypeObj → TypeObj → Bool
  | .s a, .s b => a == b
  | .lst xs, .lst ys => tBeqL xs ys
  | .tup xs, .tup ys => tBeqL xs ys
  | .cls a, .cls b => a == b
  | .spec p xs, .spec q ys => p == q && tBeqP xs ys
  | _, _ => false

def tBeqL : List TypeObj → List TypeObj → Bool
  | [], [] => true
  | x :: xs, y :: ys => tBeq x y && tBeqL xs ys
  | _, _ => false

def tBeqP : List (String × TypeObj) → List (String × TypeObj) → Bool
  | [], [] => true
  | (k, x) :: xs, (l, y) :: ys => k == l && tBeq x y && tBeqP xs ys
  | _, _ => false

end

/-- Lexicographic order on character lists by code point (Python 2 `str` order). -/
def lexLeB : List Char → List Char → Bool
  | [], _ => true
  | _ :: _, [] => false
  | a :: as, b :: bs =>
    if a.toNat < b.toNat then true
    else if b.toNat < a.toNat then false
    else lexLeB as bs

/-- Python string comparison `a <= b`. -/
def strLeB (a b : String) : Bool := lexLeB a.data b.data

/-- Pair order by key, as used by `sorted(dict_value.items())` (with distinct
keys the tuple comparison never reaches the values). -/
def keyLE {α : Type} (a b : String × α) : Prop := strLeB a.1 b.1 = true

instance {α : Type} : DecidableRel (@keyLE α) :=
  fun a b => inferInstanceAs (Decidable (strLeB a.1 b.1 = true))

/-- The loop body of `dict2tuple`: a list value becomes a tuple, any other
value is kept. -/
def tupleize : TypeObj → TypeObj
  | .lst xs => .tup xs
  | v => v

def normEntry (kv : String × TypeObj) : String × TypeObj := (kv.1, tupleize kv.2)

/-- `dict2tuple`: convert a dict value to a hashable equivalent via tuples —
sort the items by key and turn list values into tuples. -/
def dict2tuple (dict_value : List (String × TypeObj)) : List (String × TypeObj) :=
  (List.insertionSort keyLE dict_value).map normEntry

/-- `NAME_VERSION_DICT`: dict with only name/version keys and string values. -/
def NAME_VERSION_DICT : TypeObj :=
  .spec .pydict (dict2tuple [
    ("required_keys", .lst [.s "name", .s "version"]),
    ("opt_keys", .lst []),
    ("value_types", .lst [.cls .pystr])])

def DEPENDENCY_DICT : TypeObj :=
  .spec .pydict (dict2tuple [
    ("opt_keys", .tup [.s "versionsuffix", .s "toolchain"]),
    ("required_keys", .tup [.s "name", .s "version"])])

def DEPENDENCIES : TypeObj :=
  .spec .pylist [("value_types", .tup [DEPENDENCY_DICT])]

def CHECKABLE_TYPES : List TypeObj := [NAME_VERSION_DICT, DEPENDENCIES, DEPENDENCY_DICT]

/-- `EASY_TYPES`: types that can be verified with `isinstance`. -/
def EASY_TYPES : List TypeObj :=
  [.cls .pybasestring, .cls .pydict, .cls .pyint, .cls .pylist, .cls .pystr, .cls .pytuple]

/-- Python `expected_type in EASY_TYPES`. -/
def easyContains (t : TypeObj) : Bool := EASY_TYPES.any (tBeq t)

/-- Python `expected_type in CHECKABLE_TYPES`. -/
def checkableContains (t : TypeObj) : Bool := CHECKABLE_TYPES.any (tBeq t)

/-- Python `isinstance(value, t)` for the atomic classes (a `str` is an
instance of both `str` and `basestring`). -/
def isinstance : PyVal → PyType → Bool
  | .str _, .pystr => true
  | .str _, .pybasestring => true
  | .int _, .pyint => true
  | .float _, .pyfloat => true
  | .list _, .pylist => true
  | .tuple _, .pytuple => true
  | .dict _, .pydict => true
  | _, _ => false

-- sanity checks (registry constants evaluate as in the source)
example : NAME_VERSION_DICT =
  .spec .pydict [
    ("opt_keys", .tup []),
    ("required_keys", .tup [.s "name", .s "version"]),
    ("value_types", .tup [.cls .pystr])] := rfl

example : DEPENDENCY_DICT =
  .spec .pydict [
    ("opt_keys", .tup [.s "versionsuffix", .s "toolchain"]),
    ("required_keys", .tup [.s "name", .s "version"])] := rfl

example : easyContains NAME_VERSION_DICT = false := rfl
example : checkableContains NAME_VERSION_DICT = true := rfl
example : checkableContains (.cls .pyfloat) = false := rfl
example : easyContains (.cls .pyfloat) = false := rfl

/-- `any(f(x) for x in l)`: short-circuits at the first true result. -/
def anyOf {α : Type} (f : α → Except EBErr Bool) : List α → Except EBErr Bool
  | [] => pure false
  | x :: rest => do
    let b ← f x
    if b then pure true else anyOf f rest

/-- `all([f(x) for x in l])`: the list comprehension evaluates every element
before `all` runs, so errors from later elements surface even after an early
false (no short-circuit of evaluation). -/
def allOfEager {α : Type} (f : α → Except EBErr Bool) : List α → Except EBErr Bool
  | [] => pure true
  | x :: rest => do
    let b ← f x
    let c ← allOfEager f rest
    pure (b && c)

/-- `extra_reqs[name]`: dict lookup, `KeyError` when absent. -/
def lookupReq (extra_reqs : List (String × TypeObj)) (name : String) : Except EBErr TypeObj :=
  match extra_reqs.find? (fun kv => kv.1 == name) with
  | some kv => pure kv.2
  | none => throw .keyErrorReq

/-- Iterate a requirement value as a sequence (`TypeError` when not one). -/
def reqSeq (extra_reqs : List (String × TypeObj)) (name : String) : Except EBErr (List TypeObj) := do
  match (← lookupReq extra_reqs name) with
  | .lst xs => pure xs
  | .tup xs => pure xs
  | _ => throw .typeErrorIter

/-- Membership `k in seq` where `k` is a Python string and `seq` holds
requirement values: equality holds only against equal strings. -/
def strMem (k : String) (seq : List TypeObj) : Bool :=
  seq.any (fun e => match e with | .s s2 => k == s2 | _ => false)

/-- The `extra_req_checkers` loop for `parent_type == dict`: fold over the
requirement entries, and-ing each checker's result into `type_ok`
(`type_ok &= check_ok` — no short-circuit), raising on unknown names.
`recur` is `is_value_of_type` for the nested type checks. -/
def dictReqsFold (recur : PyVal → TypeObj → Except EBErr Bool)
    (kvs : List (String × PyVal)) (extra_reqs : List (String × TypeObj)) :
    List (String × TypeObj) → Bool → Except EBErr Bool
  | [], type_ok => pure type_ok
  | (er_key, _) :: rest, type_ok =>
    if er_key == "key_types" then do
      let ts ← reqSeq extra_reqs "key_types"
      let check_ok ← allOfEager (fun kv => anyOf (fun t => recur (.str kv.1) t) ts) kvs
      dictReqsFold recur kvs extra_reqs rest (type_ok && check_ok)
    else if er_key == "opt_keys" then do
      let req ← reqSeq extra_reqs "required_keys"
      let opt ← reqSeq extra_reqs "opt_keys"
      let check_ok := kvs.all (fun kv => strMem kv.1 (req ++ opt))
      dictReqsFold recur kvs extra_reqs rest (type_ok && check_ok)
    else if er_key == "required_keys" then do
      let req ← reqSeq extra_reqs "required_keys"
      let check_ok := req.all (fun e =>
        match e with
        | .s s2 => kvs.any (fun kv => kv.1 == s2)
        | _ => false)
      dictReqsFold recur kvs extra_reqs rest (type_ok && check_ok)
    else if er_key == "value_types" then do
      let ts ← reqSeq extra_reqs "value_types"
      let check_ok ← allOfEager (fun kv => anyOf (fun t => recur kv.2 t) ts) kvs
      dictReqsFold recur kvs extra_reqs rest (type_ok && check_ok)
    else throw .unknownRequirement

/-- The `extra_req_checkers` loop for `parent_type == list`. -/
def listReqsFold (recur : PyVal → TypeObj → Except EBErr Bool)
    (xs : List PyVal) (extra_reqs : List (String × TypeObj)) :
    List (String × TypeObj) → Bool → Except EBErr Bool
  | [], type_ok => pure type_ok
  | (er_key, _) :: rest, type_ok =>
    if er_key == "value_types" then do
      let ts ← reqSeq extra_reqs "value_types"
      let check_ok ← allOfEager (fun el => anyOf (fun t => recur el t) ts) xs
      listReqsFold recur xs extra_reqs rest (type_ok && check_ok)
    else throw .unknownRequirement

/-- One unfolding of `is_value_of_type`, with `recur` standing for the
recursive calls on nested values/types. -/
def ivotStep (recur : PyVal → TypeObj → Except EBErr Bool)
    (value : PyVal) (expected_type : TypeObj) : Except EBErr Bool :=
  if easyContains expected_type then
    match expected_type with
    | .cls t => pure (isinstance value t)
    | _ => throw .typeErrorIsinstance  -- unreachable: easy types are classes
  else if checkableContains expected_type then
    match expected_type with
    | .spec parent_type extra_reqs =>
      if isinstance value parent_type then
        match parent_type, value with
        | .pydict, .dict kvs => dictReqsFold recur kvs extra_reqs extra_reqs true
        | .pylist, .list xs => listReqsFold recur xs extra_reqs extra_reqs true
        | _, _ => throw .unknownParentType
      else pure false
    | _ => throw .typeErrorIsinstance  -- unreachable: checkable types are 2-tuples
  else throw .unknownCheckType

/-- Fuel-indexed matcher; the fuel only has to dominate the nesting depth of
the type specification (recursion into `value_types`/`key_types` members),
so the fuel-exhausted branch is unreachable from `is_value_of_type`. -/
def ivotF : Nat → PyVal → TypeObj → Except EBErr Bool
  | 0, _, _ => throw .unknownCheckType
  | fuel + 1, value, expected_type => ivotStep (ivotF fuel) value expected_type

mutual

/-- Nesting depth of a type specification (strictly bounds the recursion
depth of `is_value_of_type` in its `expected_type` argument). -/
def tDepth : TypeObj → Nat
  | .s _ => 1
  | .cls _ => 1
  | .lst xs => tDepthL xs + 1
  | .tup xs => tDepthL xs + 1
  | .spec _ reqs => tDepthP reqs + 1

def tDepthL : List TypeObj → Nat
  | [] => 0
  | x :: xs => max (tDepth x) (tDepthL xs)

def tDepthP : List (String × TypeObj) → Nat
  | [] => 0
  | kv :: rest => max (tDepth kv.2) (tDepthP rest)

end

/-- `is_value_of_type(value, expected_type)`: check whether a value matches a
specific type, given either as a class (easy type) or as a
`(parent type, type requirements)` 2-tuple. -/
def is_value_of_type (value : PyVal) (expected_type : TypeObj) : Except EBErr Bool :=
  ivotF (tDepth expected_type) value expected_type

-- sanity checks against the source's intended behaviour
example : is_value_of_type (.str "x") (.cls .pystr) = .ok true := rfl
example : is_value_of_type (.str "x") (.cls .pybasestring) = .ok true := rfl
example : is_value_of_type (.int 3) (.cls .pystr) = .ok false := rfl
example : is_value_of_type (.float 0) (.cls .pyfloat) = .error .unknownCheckType := rfl
example : is_value_of_type (.dict [("name", .str "foo")]) NAME_VERSION_DICT = .ok false := rfl
example : is_value_of_type (.dict [("name", .str "foo"), ("version", .str "1")])
    NAME_VERSION_DICT = .ok true := rfl
example : is_value_of_type (.dict [("name", .str "foo"), ("version", .int 1)])
    NAME_VERSION_DICT = .ok false := rfl
example : is_value_of_type
    (.dict [("name", .str "a"), ("version", .str "1"), ("extra", .str "x")])
    DEPENDENCY_DICT = .ok false := rfl
example : is_value_of_type (.dict [("name", .int 5), ("version", .tuple [])])
    DEPENDENCY_DICT = .ok true := rfl
example : is_value_of_type (.list [.dict [("name", .str "a"), ("version", .str "1")]])
    DEPENDENCIES = .ok true := rfl
example : is_value_of_type (.list [.dict []]) DEPENDENCIES = .ok false := rfl
example : is_value_of_type (.tuple []) DEPENDENCIES = .ok false := rfl
example : is_value_of_type (.int 0) (.s "foo") = .error .unknownCheckType := rfl

/-- Characters stripped by Python's `str.strip()`. -/
def isPySpace (c : Char) : Bool :=
  c.toNat == 32 || c.toNat == 9 || c.toNat == 10 || c.toNat == 13 || c.toNat == 11 || c.toNat == 12

/-- Python `s.strip()`. -/
def pyStripStr (s : String) : String :=
  String.mk (((s.data.dropWhile isPySpace).reverse.dropWhile isPySpace).reverse)

/-- `.strip()` attribute access on a value (`AttributeError` off strings). -/
def pyStrip : PyVal → Except EBErr PyVal
  | .str s => pure (.str (pyStripStr s))
  | _ => throw .attributeErrorStrip

def splitCommaAux : List Char → List Char → List (List Char)
  | [], acc => [acc.reverse]
  | c :: rest, acc =>
    if c.toNat == 44 then acc.reverse :: splitCommaAux rest []
    else splitCommaAux rest (c :: acc)

/-- Python `s.split(',')`. -/
def pySplitComma (s : String) : List String :=
  (splitCommaAux s.data []).map String.mk

/-- Models `sorted(spec.keys()) == ['name', 'version']`: true exactly when the
key list has two entries that are `name` and `version` in either order (for a
two-element target, sorted-list equality is multiset equality). -/
def keysSortedIsNameVersion (kvs : List (String × PyVal)) : Bool :=
  match kvs.map Prod.fst with
  | [a, b] => (a == "name" && b == "version") || (a == "version" && b == "name")
  | _ => false

/-- `to_name_version_dict(spec)`: convert a comma-separated string or
2-element list of strings to a dict with name/version keys; a dict input must
have exactly those keys. -/
def to_name_version_dict (spc : PyVal) : Except EBErr PyVal :=
  let spc := match spc with
    | .str s => PyVal.list ((pySplitComma s).map PyVal.str)
    | v => v
  match spc with
  | .list xs =>
    match xs with
    | [x0, x1] => do
      let n ← pyStrip x0
      let v ← pyStrip x1
      pure (.dict [("name", n), ("version", v)])
    | _ => throw .listNot2Elements
  | .dict kvs =>
    if keysSortedIsNameVersion kvs then pure (.dict kvs)
    else throw .badDictKeys
  | _ => throw .nvUnsupportedType

/-- `depspec[key] = value` / one entry of `depspec.update(...)`: overwrite an
existing key in place, append a new one. -/
def dictSet (d : List (String × PyVal)) (k : String) (v : PyVal) : List (String × PyVal) :=
  if d.any (fun kv => kv.1 == k) then d.map (fun kv => if kv.1 == k then (k, v) else kv)
  else d ++ [(k, v)]

def hasKey (d : List (String × PyVal)) (k : String) : Bool :=
  d.any (fun kv => kv.1 == k)

/-- The `for key, value in dep.items()` loop of `to_dependency`. -/
def to_dependency_items :
    List (String × PyVal) → List (String × PyVal) → Bool → Except EBErr (List (String × PyVal))
  | [], depspec, found_name_version =>
    if found_name_version then pure depspec else throw .depNoNameVersion
  | (key, value) :: rest, depspec, found_name_version => do
    let depspec ←
      if key == "name" || key == "version" || key == "versionsuffix" then
        pure (dictSet depspec key value)
      else if key == "toolchain" then do
        let tc ← to_name_version_dict value
        pure (dictSet depspec "toolchain" tc)
      else if !found_name_version then
        pure (dictSet (dictSet depspec "name" (.str key)) "version" value)
      else throw .unexpectedKeyValue
    let found_name_version :=
      found_name_version || (hasKey depspec "name" && hasKey depspec "version")
    to_dependency_items rest depspec found_name_version

/-- The "old format" positional branch of `to_dependency`: `len >= 2` gives
name/version, `len >= 3` adds versionsuffix, `len >= 4` adds toolchain;
nothing else is examined and no length is rejected. -/
def depPositional (xs : List PyVal) : List (String × PyVal) :=
  match xs with
  | x0 :: x1 :: rest =>
    [("name", x0), ("version", x1)] ++
    (match rest with
     | x2 :: rest2 =>
       [("versionsuffix", x2)] ++ (match rest2 with | x3 :: _ => [("toolchain", x3)] | [] => [])
     | [] => [])
  | _ => []

/-- `to_dependency(dep)`: convert a dependency declaration (dict or
tuple/list) to a dependency dict with name/version/versionsuffix/toolchain
keys. -/
def to_dependency (dep : PyVal) : Except EBErr PyVal :=
  match dep with
  | .dict kvs => do
    let depspec ← to_dependency_items kvs [] false
    pure (.dict depspec)
  | .tuple xs => pure (.dict (depPositional xs))
  | .list xs => pure (.dict (depPositional xs))
  | _ => throw .depUnsupportedType

/-- `to_dependencies(dep_list)`: `[to_dependency(dep) for dep in dep_list]`
(iterating a string yields its characters, a dict its keys). -/
def to_dependencies (dep_list : PyVal) : Except EBErr PyVal :=
  match dep_list with
  | .list xs => do pure (.list (← xs.mapM to_dependency))
  | .tuple xs => do pure (.list (← xs.mapM to_dependency))
  | .str s => do
    pure (.list (← (s.data.map (fun c => PyVal.str (String.mk [c]))).mapM to_dependency))
  | .dict kvs => do
    pure (.list (← (kvs.map (fun kv => PyVal.str kv.1)).mapM to_dependency))
  | _ => throw .typeErrorConv

mutual

/-- Depth of a runtime value (fuel bound for `pyReprF`). -/
def pvDepth : PyVal → Nat
  | .str _ => 1
  | .int _ => 1
  | .float _ => 1
  | .list xs => pvDepthL xs + 1
  | .tuple xs => pvDepthL xs + 1
  | .dict kvs => pvDepthKV kvs + 1

def pvDepthL : List PyVal → Nat
  | [] => 0
  | x :: xs => max (pvDepth x) (pvDepthL xs)

def pvDepthKV : List (String × PyVal) → Nat
  | [] => 0
  | kv :: rest => max (pvDepth kv.2) (pvDepthKV rest)

end

/-- Fuel-indexed textual rendering of a value, standing in for Python's
`str()`/`repr()` on non-string values (the exact text is never load-bearing:
no checked property inspects it). -/
def pyReprF : Nat → PyVal → String
  | 0, _ => ""
  | fuel + 1, v =>
    match v with
    | .str s => "\x27" ++ s ++ "\x27"
    | .int n => toString n
    | .float n => toString n ++ ".0"
    | .list xs => "[" ++ String.intercalate ", " (xs.map (fun x => pyReprF fuel x)) ++ "]"
    | .tuple xs => "(" ++ String.intercalate ", " (xs.map (fun x => pyReprF fuel x)) ++ ")"
    | .dict kvs =>
      "\x7b" ++ String.intercalate ", "
        (kvs.map (fun kv => "\x27" ++ kv.1 ++ "\x27: " ++ pyReprF fuel kv.2)) ++ "\x7d"

/-- Python `str(v)`. -/
def py_str (v : PyVal) : Except EBErr PyVal :=
  match v with
  | .str s => pure (.str s)
  | v => pure (.str (pyReprF (pvDepth v) v))

/-- Python `int(v)` argument parsing for strings: optional surrounding
whitespace and sign, then decimal digits. -/
def parseIntPy (s : String) : Option Int :=
  let t := pyStripStr s
  match t.data with
  | [] => none
  | c :: rest =>
    if c.toNat == 43 then (String.mk rest).toNat?.map Int.ofNat
    else if c.toNat == 45 then (String.mk rest).toNat?.map (fun n => -(Int.ofNat n))
    else t.toNat?.map Int.ofNat

/-- Python `int(v)` (floats are modelled with integral payloads, so the
truncation is the identity on the payload). -/
def py_int : PyVal → Except EBErr PyVal
  | .int n => pure (.int n)
  | .float f => pure (.int f)
  | .str s =>
    match parseIntPy s with
    | some n => pure (.int n)
    | none => throw .valueErrorConv
  | _ => throw .typeErrorConv

/-- Python `float(v)`; string parsing is restricted to the integral-valued
literals representable by the model's floats. -/
def py_float : PyVal → Except EBErr PyVal
  | .float f => pure (.float f)
  | .int n => pure (.float n)
  | .str s =>
    match parseIntPy s with
    | some n => pure (.float n)
    | none => throw .valueErrorConv
  | _ => throw .typeErrorConv

/-- `TYPE_CONVERSION_FUNCTIONS`: target type → conversion function. -/
def TYPE_CONVERSION_FUNCTIONS : List (TypeObj × (PyVal → Except EBErr PyVal)) :=
  [(.cls .pybasestring, py_str),
   (.cls .pyfloat, py_float),
   (.cls .pyint, py_int),
   (.cls .pystr, py_str),
   (DEPENDENCIES, to_dependencies),
   (NAME_VERSION_DICT, to_name_version_dict)]

/-- Dict lookup in `TYPE_CONVERSION_FUNCTIONS`. -/
def convLookup (typ : TypeObj) : Option (PyVal → Except EBErr PyVal) :=
  (TYPE_CONVERSION_FUNCTIONS.find? (fun kv => tBeq typ kv.1)).map Prod.snd

/-- `typ in EASY_TYPES and isinstance(val, typ)` (line 156). -/
def atomicInstanceGuard (val : PyVal) (typ : TypeObj) : Bool :=
  easyContains typ &&
    (match typ with
     | .cls t => isinstance val t
     | _ => false)

/-- `isinstance(res, typ)` at line 173: for a compound `typ` the class-info
tuple `(parent, reqs)` matches any instance of `parent` and otherwise raises
`TypeError` while probing the (non-class) requirement entries. -/
def isinstanceResult (res : PyVal) (typ : TypeObj) : Except EBErr Bool :=
  match typ with
  | .cls t => pure (isinstance res t)
  | .spec parent reqs =>
    if isinstance res parent then pure true
    else if reqs.isEmpty then pure false
    else throw .typeErrorIsinstance
  | _ => throw .typeErrorIsinstance

/-- `convert_value_type(val, typ)`: try to convert the value to the target
type — identity when already conforming, else the registered conversion
function followed by the `isinstance` verification of its result. -/
def convert_value_type (val : PyVal) (typ : TypeObj) : Except EBErr PyVal := do
  if atomicInstanceGuard val typ then pure val
  else
    let already ← if checkableContains typ then is_value_of_type val typ else pure false
    if already then pure val
    else
      match convLookup typ with
      | some func =>
        match func val with
        | .ok res => do
          let ok ← isinstanceResult res typ
          if ok then pure res else throw .conversionResultBadType
        | .error err => throw (.conversionFailed err)
      | none => throw .noConversionFunction

/-- `TYPES`: expected type per easyconfig parameter name. -/
def TYPES : List (String × TypeObj) :=
  [("dependencies", DEPENDENCIES),
   ("name", .cls .pybasestring),
   ("toolchain", NAME_VERSION_DICT),
   ("version", .cls .pybasestring)]

/-- `check_type_of_param_value(key, val, auto_convert)`: returns
`(type_ok, newval)` where `newval` is `None` unless a check passed or a
conversion succeeded. -/
def check_type_of_param_value (key : String) (val : PyVal) (auto_convert : Bool) :
    Except EBErr (Bool × Option PyVal) :=
  match TYPES.find? (fun kv => kv.1 == key) with
  | none => pure (true, some val)
  | some kv => do
    let type_ok ← is_value_of_type val kv.2
    if type_ok then pure (true, some val)
    else if auto_convert then do
      let newval ← convert_value_type val kv.2
      pure (true, some newval)
    else pure (false, none)

-- sanity checks mirroring the spec's testable properties
example : to_name_version_dict (.str "intel, 2015a") =
    .ok (.dict [("name", .str "intel"), ("version", .str "2015a")]) := rfl
example : convert_value_type (.str "gcc, 4.8.2") NAME_VERSION_DICT =
    .ok (.dict [("name", .str "gcc"), ("version", .str "4.8.2")]) := rfl
example : convert_value_type (.list [.str "gcc", .str "4.8.2"]) NAME_VERSION_DICT =
    .ok (.dict [("name", .str "gcc"), ("version", .str "4.8.2")]) := rfl
example : check_type_of_param_value "nonexistent_param" (.int 42) false =
    .ok (true, some (.int 42)) := rfl
example : check_type_of_param_value "toolchain" (.str "intel, 2015a") true =
    .ok (true, some (.dict [("name", .str "intel"), ("version", .str "2015a")])) := rfl
example : convert_value_type (.list [.dict [("foo", .str "1.2.3"), ("toolchain", .str "GCC, 4.8.2")]])
    DEPENDENCIES =
    .ok (.list [.dict [("name", .str "foo"), ("version", .str "1.2.3"),
                       ("toolchain", .dict [("name", .str "GCC"), ("version", .str "4.8.2")])]]) := rfl
example : to_dependency (.list []) = .ok (.dict []) := rfl
example : to_dependency (.list [.str "a"]) = .ok (.dict []) := rfl
example : to_dependency (.tuple [.str "a", .str "b", .str "c", .str "d", .str "e"]) =
    .ok (.dict [("name", .str "a"), ("version", .str "b"),
                ("versionsuffix", .str "c"), ("toolchain", .str "d")]) := rfl
example : convert_value_type (.list [.list []]) DEPENDENCIES = .ok (.list [.dict []]) := rfl
example : convert_value_type (.list [.dict []]) DEPENDENCIES =
    .error (.conversionFailed .depNoNameVersion) := rfl
example :
    convert_value_type (.dict [("name", .int 1), ("version", .int 2)]) NAME_VERSION_DICT =
    .ok (.dict [("name", .int 1), ("version", .int 2)]) := rfl
example : check_type_of_param_value "toolchain" (.int 7) false = .ok (false, none) := rfl

/-! ### Helper lemmas -/

lemma easyContains_spec (p : PyType) (reqs : List (String × TypeObj)) :
    easyContains (.spec p reqs) = false := rfl

lemma tDepth_succ (t : TypeObj) : ∃ m, tDepth t = m + 1 := by
  cases t <;> exact ⟨_, rfl⟩

lemma ivotF_cls_str (n : Nat) (v : PyVal) :
    ivotF (n + 1) v (.cls .pystr) = .ok (isinstance v .pystr) := rfl

/-- A positive match against a compound type implies the value is an instance
of the parent type (the parent check short-circuits to false otherwise). -/
lemma ivotF_spec_true_isinstance (n : Nat) (v : PyVal) (p : PyType)
    (reqs : List (String × TypeObj)) (h : ivotF (n + 1) v (.spec p reqs) = .ok true) :
    isinstance v p = true := by
  by_contra hni
  rw [Bool.not_eq_true] at hni
  have h' : ivotStep (ivotF n) v (.spec p reqs) = .ok true := h
  unfold ivotStep at h'
  rw [easyContains_spec] at h'
  simp only [Bool.false_eq_true, if_false] at h'
  split at h'
  · rw [hni] at h'
    simp only [Bool.false_eq_true, if_false] at h'
    exact Bool.noConfusion (Except.ok.inj h')
  · exact Except.noConfusion h'

lemma anyOf_cls_str (n : Nat) (v : PyVal) :
    anyOf (fun t => ivotF (n + 1) v t) [.cls .pystr] = .ok (isinstance v .pystr) := by
  have h1 : anyOf (fun t => ivotF (n + 1) v t) [.cls .pystr] =
      if isinstance v .pystr = true then .ok true else .ok false := rfl
  rw [h1]
  cases isinstance v .pystr <;> simp

lemma allOfEager_map {α : Type} (f : α → Except EBErr Bool) (g : α → Bool) (l : List α)
    (h : ∀ a ∈ l, f a = .ok (g a)) : allOfEager f l = .ok (l.all g) := by
  induction l with
  | nil => rfl
  | cons x rest ih =>
    have hx : f x = .ok (g x) := h x (by simp)
    have hrest := ih (fun a ha => h a (by simp [ha]))
    show (do
      let b ← f x
      let c ← allOfEager f rest
      pure (b && c) : Except EBErr Bool) = _
    rw [hx, hrest]
    rfl

/-- What matching a dict value against `NAME_VERSION_DICT` computes: the
closed key-set check, the required-keys check and the string-values check,
all evaluated and conjoined. -/
lemma nvd_char (n : Nat) (kvs : List (String × PyVal)) :
    ivotF (n + 2) (.dict kvs) NAME_VERSION_DICT =
      .ok ((kvs.all (fun kv => kv.1 == "name" || kv.1 == "version")) &&
           ((kvs.any (fun kv => kv.1 == "name")) &&
            ((kvs.any (fun kv => kv.1 == "version")) &&
             kvs.all (fun kv => isinstance kv.2 .pystr)))) := by
  have hvt : allOfEager (fun kv : String × PyVal =>
      anyOf (fun t => ivotF (n + 1) kv.2 t) [.cls .pystr]) kvs =
      .ok (kvs.all (fun kv => isinstance kv.2 .pystr)) :=
    allOfEager_map _ _ _ (fun kv _ => anyOf_cls_str n kv.2)
  have hraw : ivotF (n + 2) (.dict kvs) NAME_VERSION_DICT =
      (allOfEager (fun kv : String × PyVal =>
          anyOf (fun t => ivotF (n + 1) kv.2 t) [.cls .pystr]) kvs).bind
        (fun check_ok => .ok
          (((kvs.all (fun kv => kv.1 == "name" || (kv.1 == "version" || false))) &&
            ((kvs.any (fun kv => kv.1 == "name")) &&
             ((kvs.any (fun kv => kv.1 == "version")) && true))) && check_ok)) := rfl
  rw [hraw, hvt]
  simp only [Except.bind]
  simp [Bool.and_assoc]

/-- What matching a dict value against `DEPENDENCY_DICT` computes. -/
lemma depdict_char (n : Nat) (kvs : List (String × PyVal)) :
    ivotF (n + 1) (.dict kvs) DEPENDENCY_DICT =
      .ok ((kvs.all (fun kv =>
              kv.1 == "name" || (kv.1 == "version" ||
              (kv.1 == "versionsuffix" || kv.1 == "toolchain")))) &&
           ((kvs.any (fun kv => kv.1 == "name")) && kvs.any (fun kv => kv.1 == "version"))) := by
  have hraw : ivotF (n + 1) (.dict kvs) DEPENDENCY_DICT =
      .ok ((kvs.all (fun kv =>
              kv.1 == "name" || (kv.1 == "version" ||
              (kv.1 == "versionsuffix" || (kv.1 == "toolchain" || false))))) &&
           ((kvs.any (fun kv => kv.1 == "name")) &&
            ((kvs.any (fun kv => kv.1 == "version")) && true))) := rfl
  rw [hraw]
  simp

/-- Pairwise tuple equality implies equality of the name components. -/
lemma tBeqP_keys : ∀ (xs ys : List (String × TypeObj)), tBeqP xs ys = true →
    xs.map Prod.fst = ys.map Prod.fst := by
  intro xs
  induction xs with
  | nil =>
    intro ys h
    cases ys with
    | nil => rfl
    | cons y ys => exact Bool.noConfusion h
  | cons kv rest ih =>
    intro ys h
    cases ys with
    | nil => exact Bool.noConfusion h
    | cons kv2 rest2 =>
      obtain ⟨k, x⟩ := kv
      obtain ⟨l, y⟩ := kv2
      have h' : ((k == l) = true ∧ tBeq x y = true) ∧ tBeqP rest rest2 = true := by
        simpa [tBeqP] using h
      simp [List.map, eq_of_beq h'.1.1, ih _ h'.2]

/-! ### Claim theorems -/

/-- C5 (counterexample): matching a floating-point value against the atomic
Float tag does not return true — `float` is absent from `EASY_TYPES`, so
`is_value_of_type` raises instead of performing a runtime-type check. -/
theorem C5_float_counterexample :
    is_value_of_type (.float 0) (.cls .pyfloat) = .error .unknownCheckType := rfl

/-- C5 (amended): for every atomic tag in {String (`str`/`basestring`),
Integer, Mapping, Sequence, Tuple} matching is pure runtime-type membership
and raises nothing; matching against the Float tag raises a
configuration-defect error for every value. -/
theorem C5_atomic_tags :
    (∀ v, is_value_of_type v (.cls .pystr) = .ok (isinstance v .pystr)) ∧
    (∀ v, is_value_of_type v (.cls .pybasestring) = .ok (isinstance v .pybasestring)) ∧
    (∀ v, is_value_of_type v (.cls .pyint) = .ok (isinstance v .pyint)) ∧
    (∀ v, is_value_of_type v (.cls .pydict) = .ok (isinstance v .pydict)) ∧
    (∀ v, is_value_of_type v (.cls .pylist) = .ok (isinstance v .pylist)) ∧
    (∀ v, is_value_of_type v (.cls .pytuple) = .ok (isinstance v .pytuple)) ∧
    (∀ v, is_value_of_type v (.cls .pyfloat) = .error .unknownCheckType) :=
  ⟨fun _ => rfl, fun _ => rfl, fun _ => rfl, fun _ => rfl, fun _ => rfl, fun _ => rfl,
   fun _ => rfl⟩

/-- C3: matching any value against a compound TypeSpec whose parent is not
dict or list, or one declaring an unrecognized requirement name, or any
TypeSpec not registered at all, raises the configuration-defect error —
regardless of the value, in particular also when the value's runtime shape
differs from the compound's parent. -/
theorem C3_defective_spec_raises :
    ∀ (v : PyVal) (t : TypeObj),
      ((∃ p reqs, t = .spec p reqs ∧ p ≠ .pydict ∧ p ≠ .pylist) ∨
       (∃ p reqs, t = .spec p reqs ∧ ∃ kv ∈ reqs,
          kv.1 ∉ (["key_types", "opt_keys", "required_keys", "value_types"] : List String)) ∨
       (easyContains t = false ∧ checkableContains t = false)) →
      is_value_of_type v t = .error .unknownCheckType := by
  intro v t hdef
  have hkey : easyContains t = false ∧ checkableContains t = false := by
    rcases hdef with ⟨p, reqs, rfl, hp1, hp2⟩ | ⟨p, reqs, rfl, kv, hkv, hname⟩ | h
    · refine ⟨easyContains_spec p reqs, ?_⟩
      have e1 : (p == PyType.pydict) = false := beq_eq_false_iff_ne.mpr hp1
      have e2 : (p == PyType.pylist) = false := beq_eq_false_iff_ne.mpr hp2
      simp only [checkableContains, CHECKABLE_TYPES, List.any_cons, List.any_nil,
        NAME_VERSION_DICT, DEPENDENCIES, DEPENDENCY_DICT, tBeq, e1, e2,
        Bool.false_and, Bool.or_self, Bool.or_false]
    · refine ⟨easyContains_spec p reqs, ?_⟩
      have hbad : ∀ (q : PyType) (reqs2 : List (String × TypeObj)),
          reqs2.map Prod.fst ⊆ ["key_types", "opt_keys", "required_keys", "value_types"] →
          tBeq (.spec p reqs) (.spec q reqs2) = false := by
        intro q reqs2 hsub
        by_contra hcon
        rw [Bool.not_eq_false] at hcon
        have h2 : tBeqP reqs reqs2 = true :=
          (by simpa [tBeq] using hcon : p = q ∧ tBeqP reqs reqs2 = true).2
        have hkeys := tBeqP_keys reqs reqs2 h2
        have : kv.1 ∈ reqs2.map Prod.fst := by
          rw [← hkeys]
          exact List.mem_map_of_mem Prod.fst hkv
        exact hname (hsub this)
      simp only [checkableContains, CHECKABLE_TYPES, List.any_cons, List.any_nil,
        Bool.or_false]
      rw [show NAME_VERSION_DICT = TypeObj.spec .pydict
            [("opt_keys", .tup []), ("required_keys", .tup [.s "name", .s "version"]),
             ("value_types", .tup [.cls .pystr])] from rfl,
          show DEPENDENCIES = TypeObj.spec .pylist
            [("value_types", .tup [DEPENDENCY_DICT])] from rfl,
          show DEPENDENCY_DICT = TypeObj.spec .pydict
            [("opt_keys", .tup [.s "versionsuffix", .s "toolchain"]),
             ("required_keys", .tup [.s "name", .s "version"])] from rfl]
      rw [hbad .pydict _ (by simp), hbad .pylist _ (by simp), hbad .pydict _ (by simp)]
      rfl
    · exact h
  obtain ⟨m, hm⟩ := tDepth_succ t
  show ivotF (tDepth t) v t = _
  rw [hm]
  show ivotStep (ivotF m) v t = _
  unfold ivotStep
  rw [hkey.1, hkey.2]
  simp only [Bool.false_eq_true, if_false]
  rfl

/-- C3 (witness): a compound spec with a string parent raises on an integer
value (whose shape does not even match the parent). -/
theorem C3_defective_spec_raises_witness :
    is_value_of_type (.int 0) (.spec .pystr []) = .error .unknownCheckType :=
  C3_defective_spec_raises (.int 0) (.spec .pystr [])
    (Or.inl ⟨.pystr, [], rfl, by decide, by decide⟩)

/-- C4: for mapping values, matching against the registered compound mapping
TypeSpecs evaluates every declared requirement and conjoins the results —
with `opt_keys` closed-checking every key against required ∪ optional keys —
returning a boolean and never raising; in particular the two spec examples
yield false. -/
theorem C4_mapping_requirements :
    (∀ kvs, is_value_of_type (.dict kvs) DEPENDENCY_DICT =
      .ok ((kvs.all (fun kv => kv.1 == "name" || (kv.1 == "version" ||
              (kv.1 == "versionsuffix" || kv.1 == "toolchain")))) &&
           ((kvs.any (fun kv => kv.1 == "name")) &&
            kvs.any (fun kv => kv.1 == "version")))) ∧
    (∀ kvs, is_value_of_type (.dict kvs) NAME_VERSION_DICT =
      .ok ((kvs.all (fun kv => kv.1 == "name" || kv.1 == "version")) &&
           ((kvs.any (fun kv => kv.1 == "name")) &&
            ((kvs.any (fun kv => kv.1 == "version")) &&
             kvs.all (fun kv => isinstance kv.2 .pystr))))) ∧
    (is_value_of_type
      (.dict [("name", .str "a"), ("version", .str "1"), ("extra", .str "x")])
      DEPENDENCY_DICT = .ok false) ∧
    (is_value_of_type (.dict [("name", .str "foo")]) NAME_VERSION_DICT = .ok false) :=
  ⟨fun kvs => depdict_char 2 kvs, fun kvs => nvd_char 1 kvs, rfl, rfl⟩

/-- C2 (counterexample): the positional dependency coercion does not reject
sequences whose length is outside 2–4 — an empty list yields an empty
mapping and a 5-element list silently drops the fifth element, with no
shape-ambiguity error in either case. -/
theorem C2_counterexample :
    to_dependency (.list []) = .ok (.dict []) ∧
    to_dependency (.tuple [.str "a", .str "b", .str "c", .str "d", .str "e"]) =
      .ok (.dict [("name", .str "a"), ("version", .str "b"),
                  ("versionsuffix", .str "c"), ("toolchain", .str "d")]) :=
  ⟨rfl, rfl⟩

/-- C2 (amended): a sequence of length ≥ 2 is mapped positionally onto
(name, version, [versionsuffix, [toolchain]]), with elements beyond the
fourth ignored; a sequence of length < 2 yields an empty mapping; no length
is rejected. -/
theorem C2_positional_fields :
    (∀ xs : List PyVal, 2 ≤ xs.length →
      to_dependency (.list xs) =
        .ok (.dict (List.zip ["name", "version", "versionsuffix", "toolchain"] xs)) ∧
      to_dependency (.tuple xs) =
        .ok (.dict (List.zip ["name", "version", "versionsuffix", "toolchain"] xs))) ∧
    (∀ xs : List PyVal, xs.length < 2 →
      to_dependency (.list xs) = .ok (.dict []) ∧
      to_dependency (.tuple xs) = .ok (.dict [])) := by
  constructor
  · intro xs hlen
    match xs, hlen with
    | [x0, x1], _ => exact ⟨rfl, rfl⟩
    | [x0, x1, x2], _ => exact ⟨rfl, rfl⟩
    | x0 :: x1 :: x2 :: x3 :: rest, _ => exact ⟨rfl, rfl⟩
  · intro xs hlen
    match xs, hlen with
    | [], _ => exact ⟨rfl, rfl⟩
    | [x0], _ => exact ⟨rfl, rfl⟩

/-- Unfolding of `convert_value_type` at a dict value and the
`NAME_VERSION_DICT` target: the atomic fast path never applies, so the
matcher result decides between the identity and the coercion function. -/
lemma convert_nvd_raw (kvs : List (String × PyVal)) :
    convert_value_type (.dict kvs) NAME_VERSION_DICT =
      Bind.bind (is_value_of_type (.dict kvs) NAME_VERSION_DICT)
        (fun already =>
          if already = true then pure (.dict kvs)
          else
            match to_name_version_dict (.dict kvs) with
            | .ok res =>
              Bind.bind (isinstanceResult res NAME_VERSION_DICT)
                (fun ok => if ok = true then pure res else throw .conversionResultBadType)
            | .error err => throw (.conversionFailed err)) := rfl

/-- With bad keys and no duplicate keys, a dict value fails the
`NAME_VERSION_DICT` matcher (returning false, not raising). -/
lemma nvd_match_false_of_bad_keys (kvs : List (String × PyVal))
    (hnd : (kvs.map Prod.fst).Nodup) (hks : keysSortedIsNameVersion kvs = false) :
    is_value_of_type (.dict kvs) NAME_VERSION_DICT = .ok false := by
  have hchar : is_value_of_type (.dict kvs) NAME_VERSION_DICT =
      .ok ((kvs.all (fun kv => kv.1 == "name" || kv.1 == "version")) &&
           ((kvs.any (fun kv => kv.1 == "name")) &&
            ((kvs.any (fun kv => kv.1 == "version")) &&
             kvs.all (fun kv => isinstance kv.2 .pystr)))) := nvd_char 1 kvs
  rw [hchar]
  suffices hB : ((kvs.all (fun kv => kv.1 == "name" || kv.1 == "version")) &&
      ((kvs.any (fun kv => kv.1 == "name")) &&
       ((kvs.any (fun kv => kv.1 == "version")) &&
        kvs.all (fun kv => isinstance kv.2 .pystr)))) = false by rw [hB]
  by_contra hcon
  rw [Bool.not_eq_false] at hcon
  simp only [Bool.and_eq_true, List.all_eq_true, List.any_eq_true, beq_iff_eq,
    Bool.or_eq_true] at hcon
  obtain ⟨hall, ⟨kvn, hkvn, hn⟩, ⟨kvv, hkvv, hv⟩, _⟩ := hcon
  match kvs, hnd, hks with
  | [], _, _ => exact absurd hkvn (List.not_mem_nil kvn)
  | [a], _, _ =>
    have ha : kvn = a := List.mem_singleton.mp hkvn
    have hb : kvv = a := List.mem_singleton.mp hkvv
    rw [ha] at hn; rw [hb] at hv
    rw [hn] at hv
    exact absurd hv (by decide)
  | [a, b], hnd, hks =>
    have hab : a.1 ≠ b.1 := by
      simp only [List.map, List.nodup_cons, List.mem_singleton, List.mem_cons,
        List.not_mem_nil] at hnd
      exact fun hcontra => hnd.1 (by simp [hcontra])
    have haor := hall a (by simp)
    have hbor := hall b (by simp)
    have hksu : keysSortedIsNameVersion [a, b] =
        ((a.1 == "name" && b.1 == "version") || (a.1 == "version" && b.1 == "name")) := rfl
    rw [hksu] at hks
    rcases haor with ha | ha <;> rcases hbor with hb | hb
    · exact hab (ha.trans hb.symm)
    · simp [ha, hb] at hks
    · simp [ha, hb] at hks
    · exact hab (ha.trans hb.symm)
  | a :: b :: c :: rest, hnd, _ =>
    have hnodup : a.1 ≠ b.1 ∧ a.1 ≠ c.1 ∧ b.1 ≠ c.1 := by
      simp only [List.map, List.nodup_cons, List.mem_cons, List.mem_map] at hnd
      exact ⟨fun h => hnd.1 (Or.inl h), fun h => hnd.1 (Or.inr (Or.inl h)),
             fun h => hnd.2.1 (Or.inl h)⟩
    have ha := hall a (by simp)
    have hb := hall b (by simp)
    have hc := hall c (by simp)
    rcases ha with ha | ha <;> rcases hb with hb | hb <;> rcases hc with hc | hc
    · exact hnodup.1 (ha.trans hb.symm)
    · exact hnodup.1 (ha.trans hb.symm)
    · exact hnodup.2.1 (ha.trans hc.symm)
    · exact hnodup.2.2 (hb.trans hc.symm)
    · exact hnodup.2.2 (hb.trans hc.symm)
    · exact hnodup.2.1 (ha.trans hc.symm)
    · exact hnodup.1 (ha.trans hb.symm)
    · exact hnodup.1 (ha.trans hb.symm)

/-- C6: the NameVersion coercion maps a comma-separated two-field string and
a 2-element string list to the same canonical mapping; an already-conforming
mapping is returned unchanged (round trip); a list of the wrong length or a
mapping with a different (duplicate-free) key set fails with the
shape-ambiguity error, wrapped by the converter. -/
theorem C6_name_version_coercion :
    (convert_value_type (.str "gcc, 4.8.2") NAME_VERSION_DICT =
      .ok (.dict [("name", .str "gcc"), ("version", .str "4.8.2")])) ∧
    (convert_value_type (.list [.str "gcc", .str "4.8.2"]) NAME_VERSION_DICT =
      .ok (.dict [("name", .str "gcc"), ("version", .str "4.8.2")])) ∧
    (∀ kvs, is_value_of_type (.dict kvs) NAME_VERSION_DICT = .ok true →
      convert_value_type (.dict kvs) NAME_VERSION_DICT = .ok (.dict kvs)) ∧
    (∀ xs : List PyVal, xs.length ≠ 2 →
      convert_value_type (.list xs) NAME_VERSION_DICT =
        .error (.conversionFailed .listNot2Elements)) ∧
    (∀ kvs, (kvs.map Prod.fst).Nodup → keysSortedIsNameVersion kvs = false →
      convert_value_type (.dict kvs) NAME_VERSION_DICT =
        .error (.conversionFailed .badDictKeys)) := by
  refine ⟨rfl, rfl, ?_, ?_, ?_⟩
  · intro kvs h
    rw [convert_nvd_raw, h]
    rfl
  · intro xs hlen
    match xs, hlen with
    | [], _ => rfl
    | [a], _ => rfl
    | [a, b], h => exact absurd rfl h
    | a :: b :: c :: rest, _ => rfl
  · intro kvs hnd hks
    rw [convert_nvd_raw, nvd_match_false_of_bad_keys kvs hnd hks]
    have ht : to_name_version_dict (.dict kvs) =
        if keysSortedIsNameVersion kvs = true then .ok (.dict kvs)
        else .error .badDictKeys := rfl
    show ((match to_name_version_dict (.dict kvs) with
          | .ok res =>
            Bind.bind (isinstanceResult res NAME_VERSION_DICT)
              (fun ok => if ok = true then pure res else throw EBErr.conversionResultBadType)
          | .error err => throw (EBErr.conversionFailed err)) : Except EBErr PyVal) = _
    rw [ht, hks]
    rfl

/-- C6 (witness): the universally quantified parts of the theorem applied at
concrete inputs, hypotheses discharged by evaluation. -/
theorem C6_name_version_coercion_witness :
    convert_value_type (.dict [("name", .str "foo"), ("version", .str "1.2")])
      NAME_VERSION_DICT =
      .ok (.dict [("name", .str "foo"), ("version", .str "1.2")]) ∧
    convert_value_type (.list [.str "a"]) NAME_VERSION_DICT =
      .error (.conversionFailed .listNot2Elements) ∧
    convert_value_type (.dict [("nom", .str "x")]) NAME_VERSION_DICT =
      .error (.conversionFailed .badDictKeys) :=
  ⟨C6_name_version_coercion.2.2.1 [("name", .str "foo"), ("version", .str "1.2")] rfl,
   C6_name_version_coercion.2.2.2.1 [.str "a"] (by decide),
   C6_name_version_coercion.2.2.2.2 [("nom", .str "x")] (by decide) rfl⟩

/-- C7: looking up an unregistered parameter skips the check; a passing
match returns the value unchanged; a failing match with `auto_convert` runs
the converter, whose success or structured error is returned directly; a
failing match without `auto_convert` yields a false first component with no
exception. -/
theorem C7_check_semantics :
    (∀ (key : String) (val : PyVal) (ac : Bool),
      TYPES.find? (fun kv => kv.1 == key) = none →
      check_type_of_param_value key val ac = .ok (true, some val)) ∧
    (∀ (key : String) (val : PyVal) (ac : Bool) (kv : String × TypeObj),
      TYPES.find? (fun kv2 => kv2.1 == key) = some kv →
      is_value_of_type val kv.2 = .ok true →
      check_type_of_param_value key val ac = .ok (true, some val)) ∧
    (∀ (key : String) (val : PyVal) (kv : String × TypeObj) (nv : PyVal),
      TYPES.find? (fun kv2 => kv2.1 == key) = some kv →
      is_value_of_type val kv.2 = .ok false →
      convert_value_type val kv.2 = .ok nv →
      check_type_of_param_value key val true = .ok (true, some nv)) ∧
    (∀ (key : String) (val : PyVal) (kv : String × TypeObj) (e : EBErr),
      TYPES.find? (fun kv2 => kv2.1 == key) = some kv →
      is_value_of_type val kv.2 = .ok false →
      convert_value_type val kv.2 = .error e →
      check_type_of_param_value key val true = .error e) ∧
    (∀ (key : String) (val : PyVal) (kv : String × TypeObj),
      TYPES.find? (fun kv2 => kv2.1 == key) = some kv →
      is_value_of_type val kv.2 = .ok false →
      ∃ r, check_type_of_param_value key val false = .ok r ∧ r.1 = false) := by
  refine ⟨?_, ?_, ?_, ?_, ?_⟩
  · intro key val ac hfind
    unfold check_type_of_param_value
    rw [hfind]
    rfl
  · intro key val ac kv hfind hiv
    unfold check_type_of_param_value
    rw [hfind]
    show (Bind.bind (is_value_of_type val kv.2)
      (fun type_ok =>
        if type_ok = true then pure (true, some val)
        else if ac = true then
          Bind.bind (convert_value_type val kv.2)
            (fun newval => pure (true, some newval))
        else pure (false, none)) : Except EBErr (Bool × Option PyVal)) = _
    rw [hiv]
    rfl
  · intro key val kv nv hfind hiv hconv
    unfold check_type_of_param_value
    rw [hfind]
    show (Bind.bind (is_value_of_type val kv.2)
      (fun type_ok =>
        if type_ok = true then pure (true, some val)
        else if true = true then
          Bind.bind (convert_value_type val kv.2)
            (fun newval => pure (true, some newval))
        else pure (false, none)) : Except EBErr (Bool × Option PyVal)) = _
    rw [hiv, hconv]
    rfl
  · intro key val kv e hfind hiv hconv
    unfold check_type_of_param_value
    rw [hfind]
    show (Bind.bind (is_value_of_type val kv.2)
      (fun type_ok =>
        if type_ok = true then pure (true, some val)
        else if true = true then
          Bind.bind (convert_value_type val kv.2)
            (fun newval => pure (true, some newval))
        else pure (false, none)) : Except EBErr (Bool × Option PyVal)) = _
    rw [hiv, hconv]
    rfl
  · intro key val kv hfind hiv
    refine ⟨(false, none), ?_, rfl⟩
    unfold check_type_of_param_value
    rw [hfind]
    show (Bind.bind (is_value_of_type val kv.2)
      (fun type_ok =>
        if type_ok = true then pure (true, some val)
        else if false = true then
          Bind.bind (convert_value_type val kv.2)
            (fun newval => pure (true, some newval))
        else pure (false, none)) : Except EBErr (Bool × Option PyVal)) = _
    rw [hiv]
    rfl

/-- C7 (witness): the theorem at the spec's own concrete examples. -/
theorem C7_check_semantics_witness :
    check_type_of_param_value "nonexistent_param" (.int 42) false =
      .ok (true, some (.int 42)) ∧
    check_type_of_param_value "toolchain" (.str "intel, 2015a") true =
      .ok (true, some (.dict [("name", .str "intel"), ("version", .str "2015a")])) ∧
    check_type_of_param_value "name" (.str "gzip") true = .ok (true, some (.str "gzip")) :=
  ⟨C7_check_semantics.1 "nonexistent_param" (.int 42) false rfl,
   C7_check_semantics.2.2.1 "toolchain" (.str "intel, 2015a")
     ("toolchain", NAME_VERSION_DICT)
     (.dict [("name", .str "intel"), ("version", .str "2015a")]) rfl rfl rfl,
   C7_check_semantics.2.1 "name" (.str "gzip") true ("name", .cls .pybasestring) rfl rfl⟩

/-- C10: when a type is registered, the match fails and auto-conversion is
disabled, the checker returns a false flag paired with `None` — not the
original value. -/
theorem C10_failed_check_returns_none :
    ∀ (key : String) (val : PyVal) (kv : String × TypeObj),
      TYPES.find? (fun kv2 => kv2.1 == key) = some kv →
      is_value_of_type val kv.2 = .ok false →
      check_type_of_param_value key val false = .ok (false, none) := by
  intro key val kv hfind hiv
  unfold check_type_of_param_value
  rw [hfind]
  show (Bind.bind (is_value_of_type val kv.2)
    (fun type_ok =>
      if type_ok = true then pure (true, some val)
      else if false = true then
        Bind.bind (convert_value_type val kv.2)
          (fun newval => pure (true, some newval))
      else pure (false, none)) : Except EBErr (Bool × Option PyVal)) = _
  rw [hiv]
  rfl

/-- C10 (witness): a non-dict toolchain value without auto-conversion. -/
theorem C10_failed_check_returns_none_witness :
    check_type_of_param_value "toolchain" (.int 7) false = .ok (false, none) :=
  C10_failed_check_returns_none "toolchain" (.int 7) ("toolchain", NAME_VERSION_DICT)
    rfl rfl

/-- Runtime-type membership in the target: its class for an atomic target,
its parent type for a compound one (what the line-173 `isinstance`
verification actually establishes). -/
def instanceOfTarget (v : PyVal) : TypeObj → Bool
  | .cls t => isinstance v t
  | .spec p _ => isinstance v p
  | _ => false

lemma atomic_guard_instance (val : PyVal) (typ : TypeObj)
    (hg : atomicInstanceGuard val typ = true) : instanceOfTarget val typ = true := by
  unfold atomicInstanceGuard at hg
  rw [Bool.and_eq_true] at hg
  cases typ with
  | cls t => exact hg.2
  | s x => exact Bool.noConfusion hg.2
  | lst xs => exact Bool.noConfusion hg.2
  | tup xs => exact Bool.noConfusion hg.2
  | spec p reqs => exact Bool.noConfusion hg.2

lemma checkable_shape (typ : TypeObj) (hc : checkableContains typ = true) :
    ∃ p reqs, typ = TypeObj.spec p reqs := by
  cases typ with
  | spec p reqs => exact ⟨p, reqs, rfl⟩
  | s x => exact Bool.noConfusion hc
  | lst xs => exact Bool.noConfusion hc
  | tup xs => exact Bool.noConfusion hc
  | cls t => exact Bool.noConfusion hc

lemma isinstanceResult_true_instance (res : PyVal) (typ : TypeObj)
    (h : isinstanceResult res typ = .ok true) : instanceOfTarget res typ = true := by
  cases typ with
  | cls t => exact Except.ok.inj h
  | spec p reqs =>
    show isinstance res p = true
    by_contra hni
    rw [Bool.not_eq_true] at hni
    replace h : (if isinstance res p = true then (pure true : Except EBErr Bool)
        else if reqs.isEmpty = true then pure false
        else throw EBErr.typeErrorIsinstance) = .ok true := h
    rw [hni] at h
    rw [if_neg (by simp)] at h
    split at h
    · exact Bool.noConfusion (Except.ok.inj h)
    · exact Except.noConfusion h
  | s x => exact Except.noConfusion h
  | lst xs => exact Except.noConfusion h
  | tup xs => exact Except.noConfusion h

/-- Analysis of the conversion-function tail of `convert_value_type`. -/
lemma conv_tail_analysis (val r : PyVal) (typ : TypeObj)
    (h : ((match convLookup typ with
          | some func =>
            match func val with
            | .ok res =>
              Bind.bind (isinstanceResult res typ)
                (fun ok => if ok = true then pure res
                           else throw EBErr.conversionResultBadType)
            | .error err => throw (EBErr.conversionFailed err)
          | none => throw EBErr.noConversionFunction) : Except EBErr PyVal) = .ok r) :
    ∃ func, convLookup typ = some func ∧ func val = .ok r ∧
      isinstanceResult r typ = .ok true := by
  cases hfn : convLookup typ with
  | none =>
    rw [hfn] at h
    exact Except.noConfusion h
  | some func =>
    rw [hfn] at h
    replace h : ((match func val with
        | .ok res =>
          Bind.bind (isinstanceResult res typ)
            (fun ok => if ok = true then pure res
                       else throw EBErr.conversionResultBadType)
        | .error err => throw (EBErr.conversionFailed err)) : Except EBErr PyVal) = .ok r := h
    cases hres : func val with
    | error e =>
      rw [hres] at h
      exact Except.noConfusion h
    | ok res =>
      rw [hres] at h
      replace h : Bind.bind (isinstanceResult res typ)
          (fun ok => if ok = true then (pure res : Except EBErr PyVal)
                     else throw EBErr.conversionResultBadType) = .ok r := h
      cases hisr : isinstanceResult res typ with
      | error e =>
        rw [hisr] at h
        exact Except.noConfusion h
      | ok bb =>
        rw [hisr] at h
        cases bb with
        | false => exact Except.noConfusion h
        | true =>
          obtain rfl : res = r := Except.ok.inj h
          exact ⟨func, rfl, hres, hisr⟩

/-- Case analysis of a successful `convert_value_type`: the atomic identity
fast path, the compound identity fast path, or a conversion-function run
followed by the `isinstance` verification. -/
lemma convert_ok_analysis (val r : PyVal) (typ : TypeObj)
    (h : convert_value_type val typ = .ok r) :
    (atomicInstanceGuard val typ = true ∧ r = val) ∨
    (checkableContains typ = true ∧ is_value_of_type val typ = .ok true ∧ r = val) ∨
    (∃ func, convLookup typ = some func ∧ func val = .ok r ∧
      isinstanceResult r typ = .ok true) := by
  unfold convert_value_type at h
  split at h
  case isTrue hg => exact Or.inl ⟨hg, (Except.ok.inj h).symm⟩
  case isFalse hg =>
    cases hc : checkableContains typ with
    | false =>
      rw [hc] at h
      rw [if_neg (by simp)] at h
      exact Or.inr (Or.inr (conv_tail_analysis val r typ h))
    | true =>
      rw [hc] at h
      rw [if_pos rfl] at h
      cases hiv : is_value_of_type val typ with
      | error e =>
        rw [hiv] at h
        exact Except.noConfusion h
      | ok b =>
        rw [hiv] at h
        cases b with
        | true => exact Or.inr (Or.inl ⟨rfl, rfl, (Except.ok.inj h).symm⟩)
        | false => exact Or.inr (Or.inr (conv_tail_analysis val r typ h))

/-- C1 (counterexample): a dict with the right keys but non-string values is
coerced to `NAME_VERSION_DICT` "successfully" and returned unchanged, even
though a Matcher pass rejects it — the post-conversion verification is only
an `isinstance` check, not a full Matcher pass. -/
theorem C1_counterexample :
    convert_value_type (.dict [("name", .int 1), ("version", .int 2)]) NAME_VERSION_DICT =
      .ok (.dict [("name", .int 1), ("version", .int 2)]) ∧
    is_value_of_type (.dict [("name", .int 1), ("version", .int 2)]) NAME_VERSION_DICT =
      .ok false :=
  ⟨rfl, rfl⟩

/-- C1 (amended): every value returned by `convert_value_type` is an instance
of the target's runtime type (its class, or the parent type of a compound
target) — that is all the post-conversion verification establishes; for a
compound target the declared requirements are not re-verified. -/
theorem C1_convert_runtime_instance :
    ∀ (val res : PyVal) (typ : TypeObj), convert_value_type val typ = .ok res →
      instanceOfTarget res typ = true := by
  intro val res typ h
  rcases convert_ok_analysis val res typ h with
    ⟨hg, rfl⟩ | ⟨hc, hiv, rfl⟩ | ⟨func, hfn, hres, hisr⟩
  · exact atomic_guard_instance _ typ hg
  · obtain ⟨p, reqs, rfl⟩ := checkable_shape typ hc
    exact ivotF_spec_true_isinstance (tDepthP reqs) _ p reqs hiv
  · exact isinstanceResult_true_instance res typ hisr

/-- C1 (witness): the amended theorem at a concrete conversion. -/
theorem C1_convert_runtime_instance_witness :
    instanceOfTarget (.dict [("name", .str "gcc"), ("version", .str "4.8.2")])
      NAME_VERSION_DICT = true :=
  C1_convert_runtime_instance (.str "gcc, 4.8.2")
    (.dict [("name", .str "gcc"), ("version", .str "4.8.2")]) NAME_VERSION_DICT rfl

lemma py_str_shape (v r : PyVal) (h : py_str v = .ok r) : ∃ s, r = .str s := by
  cases v <;> exact ⟨_, (Except.ok.inj h).symm⟩

lemma py_int_shape (v r : PyVal) (h : py_int v = .ok r) : ∃ n, r = .int n := by
  cases v with
  | int n => exact ⟨n, (Except.ok.inj h).symm⟩
  | float f => exact ⟨f, (Except.ok.inj h).symm⟩
  | str s =>
    replace h : ((match parseIntPy s with
        | some n => pure (PyVal.int n)
        | none => throw EBErr.valueErrorConv) : Except EBErr PyVal) = .ok r := h
    cases hp : parseIntPy s with
    | some n =>
      rw [hp] at h
      exact ⟨n, (Except.ok.inj h).symm⟩
    | none =>
      rw [hp] at h
      exact Except.noConfusion h
  | list xs => exact Except.noConfusion h
  | tuple xs => exact Except.noConfusion h
  | dict kvs => exact Except.noConfusion h

lemma py_float_shape (v r : PyVal) (h : py_float v = .ok r) : ∃ f, r = .float f := by
  cases v with
  | float f => exact ⟨f, (Except.ok.inj h).symm⟩
  | int n => exact ⟨n, (Except.ok.inj h).symm⟩
  | str s =>
    replace h : ((match parseIntPy s with
        | some n => pure (PyVal.float n)
        | none => throw EBErr.valueErrorConv) : Except EBErr PyVal) = .ok r := h
    cases hp : parseIntPy s with
    | some n =>
      rw [hp] at h
      exact ⟨n, (Except.ok.inj h).symm⟩
    | none =>
      rw [hp] at h
      exact Except.noConfusion h
  | list xs => exact Except.noConfusion h
  | tuple xs => exact Except.noConfusion h
  | dict kvs => exact Except.noConfusion h

/-- A successful NameVersion coercion always yields a dict whose key list is
exactly name/version (in some order). -/
lemma to_name_version_dict_shape (v r : PyVal) (h : to_name_version_dict v = .ok r) :
    ∃ kvs, r = .dict kvs ∧ keysSortedIsNameVersion kvs = true := by
  cases v with
  | str s =>
    replace h : ((match (pySplitComma s).map PyVal.str with
        | [x0, x1] =>
          Bind.bind (pyStrip x0) (fun n =>
            Bind.bind (pyStrip x1) (fun vv =>
              pure (PyVal.dict [("name", n), ("version", vv)])))
        | _ => throw EBErr.listNot2Elements) : Except EBErr PyVal) = .ok r := h
    cases hsp : pySplitComma s with
    | nil =>
      rw [hsp] at h
      exact Except.noConfusion h
    | cons s1 tl =>
      cases tl with
      | nil =>
        rw [hsp] at h
        exact Except.noConfusion h
      | cons s2 tl2 =>
        cases tl2 with
        | nil =>
          rw [hsp] at h
          exact ⟨_, (Except.ok.inj h).symm, rfl⟩
        | cons s3 tl3 =>
          rw [hsp] at h
          exact Except.noConfusion h
  | list xs =>
    match xs with
    | [] => exact Except.noConfusion h
    | [x0] => exact Except.noConfusion h
    | x0 :: x1 :: x2 :: tl => exact Except.noConfusion h
    | [x0, x1] =>
      replace h : Bind.bind (pyStrip x0) (fun n =>
          Bind.bind (pyStrip x1) (fun vv =>
            (pure (PyVal.dict [("name", n), ("version", vv)]) : Except EBErr PyVal))) =
          .ok r := h
      cases hs0 : pyStrip x0 with
      | error e =>
        rw [hs0] at h
        exact Except.noConfusion h
      | ok n =>
        rw [hs0] at h
        replace h : Bind.bind (pyStrip x1) (fun vv =>
            (pure (PyVal.dict [("name", n), ("version", vv)]) : Except EBErr PyVal)) =
            .ok r := h
        cases hs1 : pyStrip x1 with
        | error e =>
          rw [hs1] at h
          exact Except.noConfusion h
        | ok vv =>
          rw [hs1] at h
          exact ⟨_, (Except.ok.inj h).symm, rfl⟩
  | dict kvs =>
    replace h : (if keysSortedIsNameVersion kvs = true
        then (pure (PyVal.dict kvs) : Except EBErr PyVal)
        else throw EBErr.badDictKeys) = .ok r := h
    split at h
    case isTrue hks => exact ⟨kvs, (Except.ok.inj h).symm, hks⟩
    case isFalse => exact Except.noConfusion h
  | int n => exact Except.noConfusion h
  | float f => exact Except.noConfusion h
  | tuple xs => exact Except.noConfusion h

/-- Converting a dict whose keys are exactly name/version to
`NAME_VERSION_DICT` is the identity (by the matcher fast path or by the
coercion function's dict branch). -/
lemma nvd_keys_convert_identity (kvs : List (String × PyVal))
    (hks : keysSortedIsNameVersion kvs = true) :
    convert_value_type (.dict kvs) NAME_VERSION_DICT = .ok (.dict kvs) := by
  obtain ⟨b, hb⟩ : ∃ b, is_value_of_type (.dict kvs) NAME_VERSION_DICT = .ok b :=
    ⟨_, nvd_char 1 kvs⟩
  rw [convert_nvd_raw, hb]
  cases b with
  | true => rfl
  | false =>
    show ((match to_name_version_dict (.dict kvs) with
        | .ok res =>
          Bind.bind (isinstanceResult res NAME_VERSION_DICT)
            (fun ok => if ok = true then pure res
                       else throw EBErr.conversionResultBadType)
        | .error err => throw (EBErr.conversionFailed err)) : Except EBErr PyVal) = _
    have ht : to_name_version_dict (.dict kvs) =
        if keysSortedIsNameVersion kvs = true then .ok (.dict kvs)
        else .error .badDictKeys := rfl
    rw [ht, if_pos hks]
    rfl

/-- C9 (counterexample): conversion to the dependency-list type is not
idempotent — `[[]]` converts to `[{}]` (the positional branch accepts an
empty inner list), but converting the result again fails because `{}` enters
the dict branch and has no name/version. -/
theorem C9_counterexample :
    convert_value_type (.list [.list []]) DEPENDENCIES = .ok (.list [.dict []]) ∧
    convert_value_type (.list [.dict []]) DEPENDENCIES =
      .error (.conversionFailed .depNoNameVersion) :=
  ⟨rfl, rfl⟩

/-- C9 (amended): conversion is idempotent for every registered target type
except the dependency-list type: for `str`, `basestring`, `int`, `float` and
`NAME_VERSION_DICT`, a successful conversion converts again to itself. -/
theorem C9_idempotent_outside_dependencies :
    (∀ v r, convert_value_type v (.cls .pystr) = .ok r →
      convert_value_type r (.cls .pystr) = .ok r) ∧
    (∀ v r, convert_value_type v (.cls .pybasestring) = .ok r →
      convert_value_type r (.cls .pybasestring) = .ok r) ∧
    (∀ v r, convert_value_type v (.cls .pyint) = .ok r →
      convert_value_type r (.cls .pyint) = .ok r) ∧
    (∀ v r, convert_value_type v (.cls .pyfloat) = .ok r →
      convert_value_type r (.cls .pyfloat) = .ok r) ∧
    (∀ v r, convert_value_type v NAME_VERSION_DICT = .ok r →
      convert_value_type r NAME_VERSION_DICT = .ok r) := by
  refine ⟨?_, ?_, ?_, ?_, ?_⟩
  · intro v r h
    rcases convert_ok_analysis v r (.cls .pystr) h with
      ⟨hg, rfl⟩ | ⟨hc, hiv, rfl⟩ | ⟨func, hfn, hres, hisr⟩
    · exact h
    · exact h
    · obtain rfl : py_str = func :=
        Option.some.inj (hfn : (some py_str : Option (PyVal → Except EBErr PyVal)) = some func)
      obtain ⟨s, rfl⟩ := py_str_shape v r hres
      rfl
  · intro v r h
    rcases convert_ok_analysis v r (.cls .pybasestring) h with
      ⟨hg, rfl⟩ | ⟨hc, hiv, rfl⟩ | ⟨func, hfn, hres, hisr⟩
    · exact h
    · exact h
    · obtain rfl : py_str = func :=
        Option.some.inj (hfn : (some py_str : Option (PyVal → Except EBErr PyVal)) = some func)
      obtain ⟨s, rfl⟩ := py_str_shape v r hres
      rfl
  · intro v r h
    rcases convert_ok_analysis v r (.cls .pyint) h with
      ⟨hg, rfl⟩ | ⟨hc, hiv, rfl⟩ | ⟨func, hfn, hres, hisr⟩
    · exact h
    · exact h
    · obtain rfl : py_int = func :=
        Option.some.inj (hfn : (some py_int : Option (PyVal → Except EBErr PyVal)) = some func)
      obtain ⟨n, rfl⟩ := py_int_shape v r hres
      rfl
  · intro v r h
    rcases convert_ok_analysis v r (.cls .pyfloat) h with
      ⟨hg, rfl⟩ | ⟨hc, hiv, rfl⟩ | ⟨func, hfn, hres, hisr⟩
    · exact Bool.noConfusion hg
    · exact Bool.noConfusion hc
    · obtain rfl : py_float = func :=
        Option.some.inj (hfn : (some py_float : Option (PyVal → Except EBErr PyVal)) = some func)
      obtain ⟨f, rfl⟩ := py_float_shape v r hres
      rfl
  · intro v r h
    rcases convert_ok_analysis v r NAME_VERSION_DICT h with
      ⟨hg, rfl⟩ | ⟨hc, hiv, rfl⟩ | ⟨func, hfn, hres, hisr⟩
    · exact Bool.noConfusion hg
    · exact h
    · obtain rfl : to_name_version_dict = func :=
        Option.some.inj
          (hfn : (some to_name_version_dict : Option (PyVal → Except EBErr PyVal)) = some func)
      obtain ⟨kvs, rfl, hks⟩ := to_name_version_dict_shape v r hres
      exact nvd_keys_convert_identity kvs hks

/-- C9 (witness): the amended theorem at a concrete NameVersion conversion. -/
theorem C9_idempotent_witness :
    convert_value_type (.dict [("name", .str "gcc"), ("version", .str "4.8.2")])
      NAME_VERSION_DICT = .ok (.dict [("name", .str "gcc"), ("version", .str "4.8.2")]) :=
  C9_idempotent_outside_dependencies.2.2.2.2 (.str "gcc, 4.8.2")
    (.dict [("name", .str "gcc"), ("version", .str "4.8.2")]) rfl

/-- C2 (witness): the amended theorem applied to concrete sequences. -/
theorem C2_positional_fields_witness :
    to_dependency (.list [.str "a", .str "b", .str "c", .str "d", .str "e"]) =
      .ok (.dict (List.zip ["name", "version", "versionsuffix", "toolchain"]
        [.str "a", .str "b", .str "c", .str "d", .str "e"])) ∧
    to_dependency (.list [.str "x"]) = .ok (.dict []) :=
  ⟨(C2_positional_fields.1 [.str "a", .str "b", .str "c", .str "d", .str "e"]
      (by decide)).1,
   (C2_positional_fields.2 [.str "x"] (by decide)).1⟩

/-! ### Order lemmas for the Hashable Encoder (C8) -/

lemma lexLeB_total : ∀ as bs : List Char, lexLeB as bs = true ∨ lexLeB bs as = true := by
  intro as
  induction as with
  | nil => intro bs; exact Or.inl rfl
  | cons a as ih =>
    intro bs
    cases bs with
    | nil => exact Or.inr rfl
    | cons b bs =>
      rcases Nat.lt_trichotomy a.toNat b.toNat with hlt | heq | hgt
      · left; simp [lexLeB, hlt]
      · have h1 : ¬ a.toNat < b.toNat := by omega
        have h2 : ¬ b.toNat < a.toNat := by omega
        rcases ih bs with h | h
        · left; simp [lexLeB, h1, h2, h]
        · right; simp [lexLeB, h1, h2, h]
      · right; simp [lexLeB, hgt]

lemma lexLeB_trans : ∀ as bs cs : List Char,
    lexLeB as bs = true → lexLeB bs cs = true → lexLeB as cs = true := by
  intro as
  induction as with
  | nil => intro bs cs h1 h2; rfl
  | cons a as ih =>
    intro bs cs h1 h2
    cases bs with
    | nil => exact Bool.noConfusion h1
    | cons b bs =>
      cases cs with
      | nil => exact Bool.noConfusion h2
      | cons c cs =>
        by_cases hab : a.toNat < b.toNat
        · by_cases hbc : b.toNat < c.toNat
          · have hac : a.toNat < c.toNat := by omega
            simp [lexLeB, hac]
          · by_cases hcb : c.toNat < b.toNat
            · rw [show lexLeB (b :: bs) (c :: cs) = false by simp [lexLeB, hbc, hcb]] at h2
              exact Bool.noConfusion h2
            · have hac : a.toNat < c.toNat := by omega
              simp [lexLeB, hac]
        · by_cases hba : b.toNat < a.toNat
          · rw [show lexLeB (a :: as) (b :: bs) = false by simp [lexLeB, hab, hba]] at h1
            exact Bool.noConfusion h1
          · have h1' : lexLeB as bs = true := by simpa [lexLeB, hab, hba] using h1
            by_cases hbc : b.toNat < c.toNat
            · have hac : a.toNat < c.toNat := by omega
              simp [lexLeB, hac]
            · by_cases hcb : c.toNat < b.toNat
              · rw [show lexLeB (b :: bs) (c :: cs) = false by simp [lexLeB, hbc, hcb]] at h2
                exact Bool.noConfusion h2
              · have h2' : lexLeB bs cs = true := by simpa [lexLeB, hbc, hcb] using h2
                have hac1 : ¬ a.toNat < c.toNat := by omega
                have hac2 : ¬ c.toNat < a.toNat := by omega
                simp [lexLeB, hac1, hac2, ih bs cs h1' h2']

lemma lexLeB_antisymm : ∀ as bs : List Char,
    lexLeB as bs = true → lexLeB bs as = true → as = bs := by
  intro as
  induction as with
  | nil =>
    intro bs h1 h2
    cases bs with
    | nil => rfl
    | cons b bs => exact Bool.noConfusion h2
  | cons a as ih =>
    intro bs h1 h2
    cases bs with
    | nil => exact Bool.noConfusion h1
    | cons b bs =>
      by_cases hab : a.toNat < b.toNat
      · rw [show lexLeB (b :: bs) (a :: as) = false by
          simp [lexLeB, hab, show ¬ b.toNat < a.toNat by omega]] at h2
        exact Bool.noConfusion h2
      · by_cases hba : b.toNat < a.toNat
        · rw [show lexLeB (a :: as) (b :: bs) = false by simp [lexLeB, hab, hba]] at h1
          exact Bool.noConfusion h1
        · have heq : a.toNat = b.toNat := by omega
          have hchar : a = b := by
            rw [← Char.ofNat_toNat a, ← Char.ofNat_toNat b, heq]
          have h1' : lexLeB as bs = true := by simpa [lexLeB, hab, hba] using h1
          have h2' : lexLeB bs as = true := by simpa [lexLeB, hba, hab] using h2
          rw [hchar, ih bs h1' h2']

lemma strLeB_antisymm (a b : String) (h1 : strLeB a b = true) (h2 : strLeB b a = true) :
    a = b := by
  have hdata := lexLeB_antisymm a.data b.data h1 h2
  cases a
  cases b
  exact congrArg String.mk hdata

instance : IsTotal (String × TypeObj) keyLE :=
  ⟨fun a b => lexLeB_total a.1.data b.1.data⟩

instance : IsTrans (String × TypeObj) keyLE :=
  ⟨fun a b c h1 h2 => lexLeB_trans a.1.data b.1.data c.1.data h1 h2⟩

/-- Sorting commutes with the entry normalization (it only looks at keys,
which the normalization preserves). -/
lemma insertionSort_map_norm (l : List (String × TypeObj)) :
    (List.insertionSort keyLE l).map normEntry = List.insertionSort keyLE (l.map normEntry) :=
  List.map_insertionSort keyLE keyLE normEntry l (fun _ _ _ _ => Iff.rfl)

/-- C8: the Hashable Encoder is canonical — two requirement descriptions with
the same name-to-value content, regardless of entry insertion order and of
list-versus-tuple representation of sequence values, encode to equal results
(and equal values hash equally). -/
theorem C8_encoder_canonical :
    ∀ d1 d2 : List (String × TypeObj),
      (d1.map normEntry).Perm (d2.map normEntry) →
      (d1.map Prod.fst).Nodup →
      dict2tuple d1 = dict2tuple d2 := by
  intro d1 d2 hperm hnd1
  show (List.insertionSort keyLE d1).map normEntry =
    (List.insertionSort keyLE d2).map normEntry
  rw [insertionSort_map_norm, insertionSort_map_norm]
  have hkeys1 : ((d1.map normEntry).map Prod.fst).Nodup := by
    rw [List.map_map]
    have hfun : d1.map (Prod.fst ∘ normEntry) = d1.map Prod.fst := rfl
    rw [hfun]
    exact hnd1
  have hself1 := List.perm_insertionSort keyLE (d1.map normEntry)
  have hself2 := List.perm_insertionSort keyLE (d2.map normEntry)
  have hchain : (List.insertionSort keyLE (d1.map normEntry)).Perm
      (List.insertionSort keyLE (d2.map normEntry)) :=
    (hself1.trans hperm).trans hself2.symm
  have hs1 := List.sorted_insertionSort keyLE (d1.map normEntry)
  have hs2 := List.sorted_insertionSort keyLE (d2.map normEntry)
  have hn1 : ((List.insertionSort keyLE (d1.map normEntry)).map Prod.fst).Nodup :=
    ((hself1.map Prod.fst).nodup_iff).mpr hkeys1
  have hn2 : ((List.insertionSort keyLE (d2.map normEntry)).map Prod.fst).Nodup := by
    refine ((hself2.map Prod.fst).nodup_iff).mpr ?_
    exact ((hperm.map Prod.fst).nodup_iff).mp hkeys1
  have hp1 : (List.insertionSort keyLE (d1.map normEntry)).Pairwise
      (fun a b : String × TypeObj => keyLE a b ∧ a.1 ≠ b.1) :=
    hs1.and (List.pairwise_map.mp hn1)
  have hp2 : (List.insertionSort keyLE (d2.map normEntry)).Pairwise
      (fun a b : String × TypeObj => keyLE a b ∧ a.1 ≠ b.1) :=
    hs2.and (List.pairwise_map.mp hn2)
  haveI : IsAntisymm (String × TypeObj) (fun a b => keyLE a b ∧ a.1 ≠ b.1) :=
    ⟨fun a b h1 h2 => absurd (strLeB_antisymm a.1 b.1 h1.1 h2.1) h1.2⟩
  exact List.eq_of_perm_of_sorted hchain hp1 hp2

/-- C8 (witness): two orderings of the same description, one holding a list
value and the other the corresponding tuple, encode identically. -/
theorem C8_encoder_canonical_witness :
    dict2tuple [("b", .lst [.s "x"]), ("a", .s "y")] =
      dict2tuple [("a", .s "y"), ("b", .tup [.s "x"])] :=
  C8_encoder_canonical [("b", .lst [.s "x"]), ("a", .s "y")]
    [("a", .s "y"), ("b", .tup [.s "x"])]
    (show (List.map normEntry [("b", .lst [.s "x"]), ("a", .s "y")]).Perm
        (List.map normEntry [("a", .s "y"), ("b", .tup [.s "x"])]) from
      List.Perm.swap ("a", TypeObj.s "y") ("b", TypeObj.tup [TypeObj.s "x"]) [])
    (by simp)
